import Mathlib

/-!
Verification development for the NexusSpace frontend core.

Shallow embedding of:
* the `analyzeProject` API client (`frontend/src/api.js`, and the class
  version `NexusApiClient.analyzeProject`): request-body construction and
  the two-tier error normalization of non-2xx responses;
* the analysis session lifecycle in `App.jsx` (`handleAnalyzeClick`, the
  sidebar button's `disabled={isLoading}` guard, the `Try Again` button and
  the conditional rendering of `<AnalysisProgress />`);
* the staged progress simulation effect in
  `components/AnalysisProgress.jsx` (the `startStage` recursion over
  `setInterval`/`setTimeout` host timers and the effect cleanup).

JavaScript numbers are modelled as exact rationals (`ℚ`); the progress
arithmetic of the simulator is `100 / (12000 / 100) = 5/6` per tick, which
is exact in `ℚ`.
-/

/-- A parsed JSON value, as produced by `response.json()`. -/
inductive Json where
  | null
  | bool (b : Bool)
  | num (q : ℚ)
  | str (s : String)
  | arr (elems : List Json)
  | obj (fields : List (String × Json))

/-- JavaScript truthiness of a parsed JSON value, as tested by `if (x)`:
`null`, `false`, `0` and `""` are falsy; every object (including arrays
and empty objects) is truthy. -/
def truthy : Json → Bool
  | .null => false
  | .bool b => b
  | .num q => decide (q ≠ 0)
  | .str s => decide (s ≠ "")
  | .arr _ => true
  | .obj _ => true

/-- JavaScript property read `v[key]` on a parsed JSON value.  Reading a
property of `null` throws a `TypeError` (modelled as `.error ()`); on an
object the field's value is returned when present; on every other value
(and on an object without the key) the read yields `undefined`, modelled
as `.ok none`. -/
def jsGetProp : Json → String → Except Unit (Option Json)
  | .null, _ => .error ()
  | .obj fields, key => .ok ((fields.find? (fun p => p.1 == key)).map (fun p => p.2))
  | _, _ => .ok none

mutual

/-- JavaScript `String(v)` conversion, used by `new Error(message)` when
the message is not already a string.  Non-integral number formatting is
host formatting and is not exercised by any theorem below. -/
def jsToString : Json → String
  | .null => "null"
  | .bool b => if b then "true" else "false"
  | .num q => if q.den = 1 then toString q.num else toString q
  | .str s => s
  | .arr elems => String.intercalate "," (jsToStringItems elems)
  | .obj _ => "[object Object]"

/-- Array elements under `String([...])`: `null` elements render as the
empty string, every other element via `jsToString`. -/
def jsToStringItems : List Json → List String
  | [] => []
  | .null :: rest => "" :: jsToStringItems rest
  | v :: rest => jsToString v :: jsToStringItems rest

end

/-- The request body built by `analyzeProject` (api.js lines 16-23):
`project_path` is always present with the given path; `analysis_prompt`
is added only when `if (analysisPrompt)` is truthy, i.e. when the prompt
argument is a non-null, non-empty string.  The argument `none` models the
JavaScript `null` default. -/
def buildRequestBody (projectPath : String) (analysisPrompt : Option String) :
    List (String × Json) :=
  let requestBody := [("project_path", Json.str projectPath)]
  match analysisPrompt with
  | some s => if s = "" then requestBody else requestBody ++ [("analysis_prompt", Json.str s)]
  | none => requestBody

/-- Look a key up in a request body (first occurrence); `none` means the
key is absent from the serialized JSON object altogether. -/
def bodyGet (body : List (String × Json)) (key : String) : Option Json :=
  (body.find? (fun p => p.1 == key)).map (fun p => p.2)

/-- A settled HTTP exchange as seen through the `fetch` response object:
`ok` is `response.ok` (status in the 2xx range), `statusText` is
`response.statusText`, and `jsonBody` is the result of attempting to
parse the body as JSON — `none` when `response.json()` would reject. -/
structure TransportResponse where
  ok : Bool
  statusText : String
  jsonBody : Option Json

/-- The fixed fallback message initialized at api.js line 35. -/
def defaultAnalyzeError : String := "Failed to analyze project"

/-- Stand-in for the host's `SyntaxError` message when `response.json()`
rejects on a 2xx response; its exact text is host-defined and not
exercised by any claim. -/
def jsonSyntaxErrorMessage : String := "Unexpected end of JSON input"

/-- Response handling of `analyzeProject` (api.js lines 33-48).  On `ok`,
resolve with the parsed body unmodified.  Otherwise normalize to a single
message: the `try` block parses the body and tests `errorData.detail`;
both a parse failure and the `TypeError` thrown by reading `.detail` on a
JSON `null` body land in the `catch`, which builds the message from
`response.statusText`; a truthy `detail` becomes the message itself; any
other parsed body leaves the initial fixed message in place. -/
def handleResponse (r : TransportResponse) : Except String Json :=
  if r.ok then
    match r.jsonBody with
    | some v => .ok v
    | none => .error jsonSyntaxErrorMessage
  else
    let errorMessage :=
      match r.jsonBody with
      | none => defaultAnalyzeError ++ ": " ++ r.statusText
      | some errorData =>
        match jsGetProp errorData "detail" with
        | .error _ => defaultAnalyzeError ++ ": " ++ r.statusText
        | .ok none => defaultAnalyzeError
        | .ok (some d) => if truthy d then jsToString d else defaultAnalyzeError
    .error errorMessage

/-- `api.analyzeProject(projectPath, analysisPrompt)` against a given
transport outcome: the body it posts and the settlement of the returned
promise. -/
def analyzeProject (projectPath : String) (analysisPrompt : Option String)
    (r : TransportResponse) : List (String × Json) × Except String Json :=
  (buildRequestBody projectPath analysisPrompt, handleResponse r)

/-! ## The analysis session (`App.jsx`)

`App` holds five `useState` cells: `isAnalyzing`, `analysisResult`,
`analysisError`, `projectPath` (initially `"."`) and `analysisPrompt`
(initially `""`).  `handleAnalyzeClick` is the only code that starts an
analysis; it is wired to the sidebar's Analyze button (which is
`disabled={isLoading}`) and to the error pane's `Try Again` button (which
is only rendered when `!isAnalyzing && analysisError`), so a click event
reaches the handler only when `isAnalyzing` is false.  The model also
records the body of the in-flight request and a log of every network call
issued, so that "no second outbound call" is a statement about the model
state. -/

structure AppState where
  isAnalyzing : Bool
  analysisResult : Option Json
  analysisError : Option String
  projectPath : String
  analysisPrompt : String
  /-- The body of the request currently awaited by `handleAnalyzeClick`,
  if any, and a copy of the last submitted body (kept after settlement). -/
  pendingBody : Option (List (String × Json))
  lastBody : Option (List (String × Json))
  /-- Every request body ever posted to `/api/analyze-project`. -/
  calls : List (List (String × Json))

/-- Events observable by the session: a click on the Analyze / Try Again
button, settlement of the awaited `api.analyzeProject` promise (an
`Except` as produced by `handleResponse`, or a network-failure message),
and edits of the two controlled inputs (which stay enabled at all
times). -/
inductive UiEvent where
  | clickAnalyze
  | settle (outcome : Except String Json)
  | setPath (p : String)
  | setPrompt (p : String)

/-- One step of the session.  `clickAnalyze` on a disabled button (while
`isAnalyzing`) is a no-op; otherwise it runs the synchronous prefix of
`handleAnalyzeClick` — `setIsAnalyzing(true)`, `setAnalysisError(null)`,
`setAnalysisResult(null)` — and issues the network call with
`analyzeProject(projectPath, analysisPrompt || null)`.  `settle` runs the
rest of the handler: store the result or the error message, then the
`finally` block's `setIsAnalyzing(false)`. -/
def step (s : AppState) : UiEvent → AppState
  | .clickAnalyze =>
    if s.isAnalyzing then s
    else
      let promptArg : Option String :=
        if s.analysisPrompt = "" then none else some s.analysisPrompt
      let body := buildRequestBody s.projectPath promptArg
      { s with isAnalyzing := true, analysisError := none, analysisResult := none,
               pendingBody := some body, lastBody := some body,
               calls := s.calls ++ [body] }
  | .settle outcome =>
    match s.pendingBody with
    | none => s
    | some _ =>
      match outcome with
      | .ok v => { s with analysisResult := some v, isAnalyzing := false,
                          pendingBody := none }
      | .error e => { s with analysisError := some e, isAnalyzing := false,
                             pendingBody := none }
  | .setPath p => { s with projectPath := p }
  | .setPrompt p => { s with analysisPrompt := p }

/-- The state on first render. -/
def initialAppState : AppState :=
  { isAnalyzing := false, analysisResult := none, analysisError := none,
    projectPath := ".", analysisPrompt := "", pendingBody := none,
    lastBody := none, calls := [] }

/-- The session state after a sequence of events from the initial render. -/
def runApp (evs : List UiEvent) : AppState := evs.foldl step initialAppState

/-- The spec's `SessionState`, read off the component state the way the
render tree does: `isAnalyzing` means `Running`; otherwise a stored error
means `Failed`, a stored result means `Succeeded`, and a blank state means
`Idle` (the welcome pane). -/
inductive SessionPhase where
  | Idle
  | Running
  | Succeeded (result : Json)
  | Failed (message : String)

def sessionPhase (s : AppState) : SessionPhase :=
  if s.isAnalyzing then .Running
  else
    match s.analysisError with
    | some e => .Failed e
    | none =>
      match s.analysisResult with
      | some v => .Succeeded v
      | none => .Idle

/-- `{isAnalyzing && <AnalysisProgress />}` (App.jsx line 91): the
progress simulator is mounted exactly while `isAnalyzing` is true. -/
def simulatorMounted (s : AppState) : Bool := s.isAnalyzing

/-- Session invariant maintained by every event: the pending request
exists exactly while `isAnalyzing`; while analyzing, both stored outcomes
are null (they were cleared by the click); and at most one of result and
error is ever non-null. -/
def InvApp (s : AppState) : Prop :=
  (s.isAnalyzing = true → s.analysisResult = none ∧ s.analysisError = none) ∧
  (s.analysisResult = none ∨ s.analysisError = none) ∧
  s.pendingBody.isSome = s.isAnalyzing

theorem invApp_initial : InvApp initialAppState := by
  refine ⟨?_, ?_, ?_⟩ <;> simp [initialAppState]

theorem invApp_step (s : AppState) (e : UiEvent) (h : InvApp s) : InvApp (step s e) := by
  obtain ⟨h1, h2, h3⟩ := h
  cases e with
  | clickAnalyze =>
    by_cases hA : s.isAnalyzing
    · simpa [step, hA] using ⟨h1, h2, h3⟩
    · simp [step, hA, InvApp]
  | settle outcome =>
    cases hp : s.pendingBody with
    | none => simpa [step, hp] using ⟨h1, h2, h3⟩
    | some b =>
      have hA : s.isAnalyzing = true := by
        rw [← h3, hp]; rfl
      obtain ⟨hr, he⟩ := h1 hA
      cases outcome with
      | ok v => simp [step, hp, InvApp, he]
      | error e => simp [step, hp, InvApp, hr]
  | setPath p => exact ⟨h1, h2, h3⟩
  | setPrompt p => exact ⟨h1, h2, h3⟩

theorem invApp_foldl (evs : List UiEvent) :
    ∀ s : AppState, InvApp s → InvApp (evs.foldl step s) := by
  induction evs with
  | nil => intro s h; exact h
  | cons e rest ih =>
    intro s h
    exact ih (step s e) (invApp_step s e h)

theorem invApp_runApp (evs : List UiEvent) : InvApp (runApp evs) :=
  invApp_foldl evs initialAppState invApp_initial

/-! ## Session phase elimination helpers -/

theorem sessionPhase_running_iff (s : AppState) :
    sessionPhase s = .Running ↔ s.isAnalyzing = true := by
  unfold sessionPhase
  by_cases hA : s.isAnalyzing
  · simp [hA]
  · simp only [hA, if_false, Bool.false_eq_true, iff_false]
    cases s.analysisError with
    | some e => simp
    | none => cases s.analysisResult with
      | some v => simp
      | none => simp

theorem sessionPhase_failed_elim (s : AppState) (e : String)
    (h : sessionPhase s = .Failed e) :
    s.isAnalyzing = false ∧ s.analysisError = some e := by
  unfold sessionPhase at h
  by_cases hA : s.isAnalyzing
  · simp [hA] at h
  · refine ⟨by simpa using hA, ?_⟩
    simp only [hA, if_false] at h
    cases herr : s.analysisError with
    | some e2 =>
      rw [herr] at h
      cases h
      rfl
    | none =>
      rw [herr] at h
      cases hres : s.analysisResult with
      | some v => rw [hres] at h; cases h
      | none => rw [hres] at h; cases h

/-! ## Claim C2 -/

/-- C2: for every non-2xx transport response, if the body parses as JSON
carrying a truthy `detail` string `X`, `analyzeProject` rejects with the
message exactly `X`; if the body is not parseable JSON, it rejects with a
message that contains the transport status text (as a suffix). -/
theorem analyzeProject_error_detail_and_fallback (r : TransportResponse)
    (hok : r.ok = false) :
    (∀ v X, r.jsonBody = some v → jsGetProp v "detail" = .ok (some (.str X)) → X ≠ "" →
      handleResponse r = .error X) ∧
    (r.jsonBody = none →
      ∃ a, handleResponse r = .error (a ++ r.statusText)) := by
  constructor
  · intro v X hv hd hX
    simp [handleResponse, hok, hv, hd, truthy, hX, jsToString]
  · intro hv
    exact ⟨defaultAnalyzeError ++ ": ", by simp [handleResponse, hok, hv, String.append_assoc]⟩

def detailResponse : TransportResponse :=
  { ok := false, statusText := "Internal Server Error",
    jsonBody := some (.obj [("detail", .str "boom")]) }

def unparseableResponse : TransportResponse :=
  { ok := false, statusText := "Service Unavailable", jsonBody := none }

theorem analyzeProject_error_detail_and_fallback_witness :
    handleResponse detailResponse = .error "boom" ∧
    ∃ a, handleResponse unparseableResponse = .error (a ++ "Service Unavailable") :=
  ⟨(analyzeProject_error_detail_and_fallback detailResponse rfl).1
      (.obj [("detail", .str "boom")]) "boom" rfl rfl (by decide),
   (analyzeProject_error_detail_and_fallback unparseableResponse rfl).2 rfl⟩

/-! ## Claim C5 -/

/-- C5: the request body always carries `project_path` equal to the given
path (even empty or whitespace), and carries `analysis_prompt` exactly
when the prompt is a non-null, non-empty string; otherwise the key is
absent from the body altogether (rather than present with value null). -/
theorem analyzeProject_request_body_keys (projectPath : String)
    (analysisPrompt : Option String) :
    bodyGet (buildRequestBody projectPath analysisPrompt) "project_path"
      = some (.str projectPath) ∧
    (∀ s, analysisPrompt = some s → s ≠ "" →
      bodyGet (buildRequestBody projectPath analysisPrompt) "analysis_prompt"
        = some (.str s)) ∧
    ((analysisPrompt = none ∨ analysisPrompt = some "") →
      bodyGet (buildRequestBody projectPath analysisPrompt) "analysis_prompt" = none) := by
  refine ⟨?_, ?_, ?_⟩
  · cases analysisPrompt with
    | none => simp [buildRequestBody, bodyGet]
    | some s =>
      by_cases hs : s = ""
      · simp [buildRequestBody, bodyGet, hs]
      · simp [buildRequestBody, bodyGet, hs]
  · intro s hs hne
    subst hs
    simp [buildRequestBody, bodyGet, hne]
  · intro h
    rcases h with h | h <;> subst h <;> simp [buildRequestBody, bodyGet]

theorem analyzeProject_request_body_keys_witness :
    bodyGet (buildRequestBody "  " (some "find bugs")) "project_path" = some (.str "  ") ∧
    bodyGet (buildRequestBody "  " (some "find bugs")) "analysis_prompt"
      = some (.str "find bugs") ∧
    bodyGet (buildRequestBody "." (some "")) "analysis_prompt" = none :=
  ⟨(analyzeProject_request_body_keys "  " (some "find bugs")).1,
   (analyzeProject_request_body_keys "  " (some "find bugs")).2.1 "find bugs" rfl (by decide),
   (analyzeProject_request_body_keys "." (some "")).2.2 (Or.inr rfl)⟩

/-! ## Claim C9 -/

def nullBodyResponse : TransportResponse :=
  { ok := false, statusText := "Bad Request", jsonBody := some .null }

/-- C9 counterexample: a non-2xx response whose body is the JSON value
`null` parses as JSON and has no truthy `detail` field, yet the rejection
message is the status-text fallback, not the fixed message: reading
`errorData.detail` on `null` throws a `TypeError` inside the `try` block
and lands in the `catch`. -/
theorem null_body_falls_back_to_status_counterexample :
    nullBodyResponse.ok = false ∧
    nullBodyResponse.jsonBody = some Json.null ∧
    handleResponse nullBodyResponse = .error "Failed to analyze project: Bad Request" ∧
    handleResponse nullBodyResponse ≠ .error "Failed to analyze project" := by
  refine ⟨rfl, rfl, rfl, ?_⟩
  intro h
  rw [show handleResponse nullBodyResponse
      = .error "Failed to analyze project: Bad Request" from rfl] at h
  exact absurd (Except.error.inj h) (by decide)

/-- C9, amended: for every non-2xx response whose body parses as a JSON
value other than `null` and carries no truthy `detail` field, the call
rejects with the fixed message `"Failed to analyze project"`.  (A JSON
`null` body instead falls back to the status-text message, because
property access on `null` throws.) -/
theorem nonnull_body_without_detail_default_message (r : TransportResponse)
    (v : Json) (hok : r.ok = false) (hv : r.jsonBody = some v) (hnull : v ≠ .null)
    (hdetail : ∀ d, jsGetProp v "detail" = .ok (some d) → truthy d = false) :
    handleResponse r = .error defaultAnalyzeError := by
  have hprop : ∃ o, jsGetProp v "detail" = .ok o := by
    cases v <;> first | exact absurd rfl hnull | exact ⟨_, rfl⟩
  obtain ⟨o, ho⟩ := hprop
  cases o with
  | none => simp [handleResponse, hok, hv, ho]
  | some d =>
    have ht := hdetail d ho
    simp [handleResponse, hok, hv, ho, ht]

def detailFreeResponse : TransportResponse :=
  { ok := false, statusText := "Bad Request",
    jsonBody := some (.obj [("message", .str "nope")]) }

theorem nonnull_body_without_detail_default_message_witness :
    handleResponse detailFreeResponse = .error defaultAnalyzeError :=
  nonnull_body_without_detail_default_message detailFreeResponse
    (.obj [("message", .str "nope")]) rfl rfl
    (by intro h; cases h)
    (by intro d hd; simp [jsGetProp] at hd)

/-! ## Claim C3 -/

/-- C3: a second start while the session is `Running` is rejected: the
Analyze button is `disabled={isLoading}` (and the `Try Again` button is
not rendered while analyzing), so the click leaves the whole state
unchanged — the originally submitted request stays pending and the
network-call log does not grow. -/
theorem second_start_while_running_is_noop (evs : List UiEvent)
    (h : sessionPhase (runApp evs) = .Running) :
    step (runApp evs) .clickAnalyze = runApp evs ∧
    (step (runApp evs) .clickAnalyze).calls = (runApp evs).calls ∧
    (step (runApp evs) .clickAnalyze).pendingBody = (runApp evs).pendingBody := by
  have hA : (runApp evs).isAnalyzing = true := (sessionPhase_running_iff _).mp h
  have hstep : step (runApp evs) .clickAnalyze = runApp evs := by
    simp [step, hA]
  exact ⟨hstep, by rw [hstep], by rw [hstep]⟩

theorem second_start_while_running_is_noop_witness :
    sessionPhase (runApp [UiEvent.clickAnalyze]) = .Running ∧
    step (runApp [UiEvent.clickAnalyze]) .clickAnalyze = runApp [UiEvent.clickAnalyze] :=
  ⟨rfl, (second_start_while_running_is_noop [UiEvent.clickAnalyze] rfl).1⟩

/-! ## Claim C7 -/

/-- C7: at every state reachable from the initial render,
`<AnalysisProgress />` (the progress simulator) is mounted if and only if
the session is `Running`; it is never mounted in `Idle`, `Succeeded` or
`Failed`. -/
theorem simulator_mounted_iff_running (evs : List UiEvent) :
    simulatorMounted (runApp evs) = true ↔ sessionPhase (runApp evs) = .Running := by
  rw [simulatorMounted, sessionPhase_running_iff]

/-! ## Claim C6 -/

/-- C6: on a 2xx response with parseable body, `analyzeProject` resolves
with the parsed JSON payload unmodified, and when that settlement reaches
a `Running` session, the session stores exactly that payload, renders the
`Succeeded` phase, and the progress simulator is unmounted. -/
theorem analyzeProject_success_passthrough_and_succeeded
    (r : TransportResponse) (v : Json) (evs : List UiEvent)
    (hok : r.ok = true) (hbody : r.jsonBody = some v)
    (hrun : sessionPhase (runApp evs) = .Running) :
    handleResponse r = .ok v ∧
    (step (runApp evs) (.settle (handleResponse r))).analysisResult = some v ∧
    sessionPhase (step (runApp evs) (.settle (handleResponse r))) = .Succeeded v ∧
    simulatorMounted (step (runApp evs) (.settle (handleResponse r))) = false := by
  have hresp : handleResponse r = .ok v := by simp [handleResponse, hok, hbody]
  have hA : (runApp evs).isAnalyzing = true := (sessionPhase_running_iff _).mp hrun
  obtain ⟨h1, _h2, h3⟩ := invApp_runApp evs
  obtain ⟨_hr, he⟩ := h1 hA
  have hp : ∃ b, (runApp evs).pendingBody = some b := by
    rw [hA] at h3
    exact Option.isSome_iff_exists.mp h3
  obtain ⟨b, hb⟩ := hp
  refine ⟨hresp, ?_, ?_, ?_⟩
  · simp [step, hb, hresp]
  · simp [step, hb, hresp, sessionPhase, he]
  · simp [step, hb, hresp, simulatorMounted]

def successPayload : Json :=
  .obj [("stage1", .obj []), ("stage2", .obj []),
        ("stage3", .obj [("response", .str "ok")]),
        ("metadata", .obj [("source_path", .str ".")])]

def successResponse : TransportResponse :=
  { ok := true, statusText := "OK", jsonBody := some successPayload }

theorem analyzeProject_success_passthrough_and_succeeded_witness :
    handleResponse successResponse = .ok successPayload ∧
    sessionPhase (step (runApp [UiEvent.clickAnalyze])
      (.settle (handleResponse successResponse))) = .Succeeded successPayload ∧
    simulatorMounted (step (runApp [UiEvent.clickAnalyze])
      (.settle (handleResponse successResponse))) = false :=
  ⟨(analyzeProject_success_passthrough_and_succeeded successResponse successPayload
      [UiEvent.clickAnalyze] rfl rfl rfl).1,
   (analyzeProject_success_passthrough_and_succeeded successResponse successPayload
      [UiEvent.clickAnalyze] rfl rfl rfl).2.2.1,
   (analyzeProject_success_passthrough_and_succeeded successResponse successPayload
      [UiEvent.clickAnalyze] rfl rfl rfl).2.2.2⟩

/-! ## Claim C8 -/

def failedThenEditedEvents : List UiEvent :=
  [.clickAnalyze, .settle (.error "boom"), .setPath "other-project"]

/-- C8 counterexample: after a failed attempt that submitted
`project_path = "."`, the user edits the path input to `"other-project"`
(the inputs stay enabled in the `Failed` pane) and clicks `Try Again`.
The retry submits `project_path = "other-project"` — the current form
value — not the path submitted by the attempt that failed, so retry is
not equivalent to re-issuing the last submitted request. -/
theorem retry_uses_current_inputs_counterexample :
    sessionPhase (runApp failedThenEditedEvents) = .Failed "boom" ∧
    (runApp failedThenEditedEvents).calls = [buildRequestBody "." none] ∧
    (step (runApp failedThenEditedEvents) .clickAnalyze).calls =
      [buildRequestBody "." none, buildRequestBody "other-project" none] ∧
    bodyGet (buildRequestBody "." none) "project_path" = some (.str ".") ∧
    bodyGet (buildRequestBody "other-project" none) "project_path"
      = some (.str "other-project") ∧
    ("other-project" : String) ≠ "." := by
  exact ⟨rfl, rfl, rfl, rfl, rfl, by decide⟩

/-- C8, amended: `Try Again` re-invokes the same `handleAnalyzeClick`
handler, which submits the current form values `projectPath` and
`analysisPrompt`; whenever those inputs still build the body of the last
submitted (failed) request — in particular when they were not edited
since the failure — the retry resubmits exactly that request. -/
theorem retry_resubmits_last_request_when_inputs_unchanged
    (s : AppState) (e : String) (b : List (String × Json))
    (hfail : sessionPhase s = .Failed e)
    (_hlast : s.lastBody = some b)
    (hsame : buildRequestBody s.projectPath
        (if s.analysisPrompt = "" then none else some s.analysisPrompt) = b) :
    (step s .clickAnalyze).calls = s.calls ++ [b] ∧
    (step s .clickAnalyze).pendingBody = some b ∧
    sessionPhase (step s .clickAnalyze) = .Running := by
  obtain ⟨hA, _⟩ := sessionPhase_failed_elim s e hfail
  refine ⟨?_, ?_, ?_⟩
  · simp [step, hA, hsame]
  · simp [step, hA, hsame]
  · rw [sessionPhase_running_iff]
    simp [step, hA]

def failedOnceEvents : List UiEvent := [.clickAnalyze, .settle (.error "boom")]

theorem retry_resubmits_last_request_when_inputs_unchanged_witness :
    (step (runApp failedOnceEvents) .clickAnalyze).calls =
      (runApp failedOnceEvents).calls ++ [buildRequestBody "." none] ∧
    (step (runApp failedOnceEvents) .clickAnalyze).pendingBody
      = some (buildRequestBody "." none) ∧
    sessionPhase (step (runApp failedOnceEvents) .clickAnalyze) = .Running :=
  retry_resubmits_last_request_when_inputs_unchanged (runApp failedOnceEvents)
    "boom" (buildRequestBody "." none) rfl rfl rfl

/-! ## Claim C10 -/

/-- C10: every start clears both the stored result and the stored error
before the network call, so after any attempted start both are null; at
most one of result and error is ever non-null at any reachable state;
both are null for the whole time the session is `Running`; and in any
`Failed` state (including a failed retry after an earlier success) the
previously stored result has been discarded. -/
theorem start_clears_result_and_error_invariant (evs : List UiEvent) :
    ((runApp evs).isAnalyzing = true →
      (runApp evs).analysisResult = none ∧ (runApp evs).analysisError = none) ∧
    (¬((runApp evs).analysisResult ≠ none ∧ (runApp evs).analysisError ≠ none)) ∧
    (runApp (evs ++ [UiEvent.clickAnalyze])).analysisResult = none ∧
    (runApp (evs ++ [UiEvent.clickAnalyze])).analysisError = none ∧
    (∀ e, sessionPhase (runApp evs) = .Failed e → (runApp evs).analysisResult = none) := by
  obtain ⟨h1, h2, _h3⟩ := invApp_runApp evs
  have happ : runApp (evs ++ [UiEvent.clickAnalyze]) = step (runApp evs) .clickAnalyze := by
    rw [runApp, List.foldl_append]
    rfl
  have hclear : (step (runApp evs) .clickAnalyze).analysisResult = none ∧
      (step (runApp evs) .clickAnalyze).analysisError = none := by
    by_cases hA : (runApp evs).isAnalyzing
    · have hs : step (runApp evs) .clickAnalyze = runApp evs := by simp [step, hA]
      rw [hs]
      exact h1 hA
    · constructor <;> simp [step, hA]
  refine ⟨h1, ?_, ?_, ?_, ?_⟩
  · intro ⟨hr, he⟩
    rcases h2 with h | h
    · exact hr h
    · exact he h
  · rw [happ]; exact hclear.1
  · rw [happ]; exact hclear.2
  · intro e hfail
    obtain ⟨_, herr⟩ := sessionPhase_failed_elim _ e hfail
    rcases h2 with h | h
    · exact h
    · rw [herr] at h; cases h

theorem start_clears_result_and_error_invariant_witness :
    (runApp [UiEvent.clickAnalyze]).analysisResult = none ∧
    (runApp [UiEvent.clickAnalyze]).analysisError = none :=
  (start_clears_result_and_error_invariant [UiEvent.clickAnalyze]).1 rfl

/-! ## The progress simulator (`components/AnalysisProgress.jsx`)

The effect keeps two local timer variables, `stageTimer` (a `setTimeout`
for the current stage's duration) and `progressTimer` (a 100 ms
`setInterval`), plus the closure variable `progressValue`.  `startStage`
resets the displayed stage and percent, arms both timers, and the stage
timeout clears the interval and recurses into the next stage; indices at
or beyond `stages.length` restart at stage 0.  The effect cleanup runs
`clearTimeout(stageTimer); clearInterval(progressTimer)`.

The host's timer facility is modelled explicitly: a list of pending
timers with registration ids and absolute deadlines, fired in deadline
order (ties broken by registration id, which puts the 120th interval tick
at 12000 ms before the stage timeout due at the same instant).  Each
`setCurrentStage`/`setProgress` update is recorded in `log` — these are
the observable `onTick` deliveries. -/

structure Stage where
  id : Nat
  name : String
  description : String
  duration : Nat

def stages : List Stage :=
  [ { id := 1, name := "Stage 1: Collecting",
      description := "Reading project files and structure...", duration := 12000 },
    { id := 2, name := "Stage 2: Ranking",
      description := "Analyzing and prioritizing files...", duration := 12000 },
    { id := 3, name := "Stage 3: Generating",
      description := "Creating comprehensive report...", duration := 12000 } ]

/-- What a pending timer does when it fires: one interval tick of the
progress bar (carrying the closure's `progressIncrement`), or the end of
a stage (carrying the captured `stageIndex + 1`). -/
inductive TimerKind where
  | progTick (increment : ℚ)
  | stageEnd (nextStage : Nat)

structure HostTimer where
  id : Nat
  due : Nat
  kind : TimerKind

structure SimWorld where
  now : Nat
  currentStage : Nat
  progressValue : ℚ
  progress : ℚ
  stageTimer : Option Nat
  progressTimer : Option Nat
  timers : List HostTimer
  nextId : Nat
  log : List (Nat × ℚ)

/-- `setTimeout`/`setInterval`: register a callback with the host and
hand back its id. -/
def setTimer (w : SimWorld) (delayMs : Nat) (kind : TimerKind) : SimWorld × Nat :=
  ({ w with timers := w.timers ++ [{ id := w.nextId, due := w.now + delayMs, kind := kind }],
            nextId := w.nextId + 1 },
   w.nextId)

/-- `clearTimeout`/`clearInterval`: drop the pending timer with the given
id; a no-op when the variable is still unset or the timer is no longer
pending. -/
def clearTimer (w : SimWorld) (timerId : Option Nat) : SimWorld :=
  match timerId with
  | none => w
  | some i => { w with timers := w.timers.filter (fun t => t.id ≠ i) }

/-- Duration of stage `j` per the `stages` list. -/
def stageDuration (j : Nat) : Nat := ((stages.get? j).map Stage.duration).getD 0

/-- `startStage(stageIndex)`: reset the displayed stage and percent, arm
the 100 ms progress interval with increment `100 / (stageDuration / 100)`
and the stage timeout for `stageDuration`.  The source's
`stageIndex >= stages.length` branch resets the display and re-enters
`startStage(0)`; since the index only ever reaches `3`, this is the
reduction of the index modulo 3. -/
def startStage (stageIndex : Nat) (w : SimWorld) : SimWorld :=
  let j := stageIndex % 3
  let w1 := { w with currentStage := j, progressValue := 0, progress := 0,
                     log := w.log ++ [(j, 0)] }
  let d := stageDuration j
  let inc : ℚ := 100 / ((d : ℚ) / 100)
  let p1 := setTimer w1 100 (.progTick inc)
  let w2 := { p1.1 with progressTimer := some p1.2 }
  let p2 := setTimer w2 d (.stageEnd (j + 1))
  { p2.1 with stageTimer := some p2.2 }

/-- Deliver one timer: advance the clock to its deadline, remove it from
the pending set, and run its callback.  An interval tick adds the
increment, clamps at 100 (clearing its own interval, hence no re-arm),
publishes `min(progressValue, 100)`, and otherwise re-arms one period
later; a stage end clears the progress interval and starts the next
stage. -/
def fireTimer (w : SimWorld) (t : HostTimer) : SimWorld :=
  let w0 := { w with now := t.due, timers := w.timers.filter (fun u => u.id ≠ t.id) }
  match t.kind with
  | .progTick inc =>
    let pv := w0.progressValue + inc
    if 100 ≤ pv then
      { w0 with progressValue := 100, progress := 100,
                log := w0.log ++ [(w0.currentStage, 100)] }
    else
      { w0 with progressValue := pv, progress := min pv 100,
                log := w0.log ++ [(w0.currentStage, min pv 100)],
                timers := w0.timers ++ [{ t with due := t.due + 100 }] }
  | .stageEnd nextStage =>
    startStage nextStage (clearTimer w0 w0.progressTimer)

/-- Host timer ordering: earlier deadline first, ties broken by
registration id. -/
def timerBefore (a b : HostTimer) : Bool :=
  decide (a.due < b.due) || (decide (a.due = b.due) && decide (a.id ≤ b.id))

def pickDue : List HostTimer → Option HostTimer
  | [] => none
  | t :: ts => some (ts.foldl (fun best u => if timerBefore best u then best else u) t)

/-- One step of the host event loop: fire the next due timer, if any. -/
def fireNext (w : SimWorld) : SimWorld :=
  match pickDue w.timers with
  | none => w
  | some t => fireTimer w t

def initWorld : SimWorld :=
  { now := 0, currentStage := 0, progressValue := 0, progress := 0,
    stageTimer := none, progressTimer := none, timers := [], nextId := 0, log := [] }

/-- Mounting `AnalysisProgress` runs the effect body: `startStage(0)`. -/
def startSim : SimWorld := startStage 0 initWorld

/-- The world after `n` timer deliveries since mount. -/
def runSim (n : Nat) : SimWorld := fireNext^[n] startSim

/-- The effect cleanup:
`clearTimeout(stageTimer); clearInterval(progressTimer)`. -/
def stopSim (w : SimWorld) : SimWorld :=
  clearTimer (clearTimer w w.stageTimer) w.progressTimer

/-! ## Closed-form characterization of the simulator run

Each stage lasts 12000 ms and consists of 120 interval ticks (one every
100 ms) followed by the stage timeout (due at the same instant as the
120th tick, fired after it).  Writing `n = 121 * k + m` with `m < 121`,
after `n` timer deliveries the simulator is in absolute stage `k`
(displayed `k % 3`) with `m` ticks delivered in it. -/

/-- The per-tick increment `100 / (12000 / 100)` in lowest terms. -/
def progressInc : ℚ := 5 / 6

/-- The pending interval timer of absolute stage `k`, with its `j`-th
tick (1-based) outstanding. -/
def progTimerAt (k j : Nat) : HostTimer :=
  { id := 2 * k, due := 12000 * k + 100 * j, kind := .progTick progressInc }

/-- The pending stage timeout of absolute stage `k`. -/
def endTimerAt (k : Nat) : HostTimer :=
  { id := 2 * k + 1, due := 12000 * (k + 1), kind := .stageEnd (k % 3 + 1) }

/-- The host's pending-timer set after `m` deliveries inside absolute
stage `k`: both timers until the 120th tick clamps and clears the
interval, then only the stage timeout. -/
def timersAt (k m : Nat) : List HostTimer :=
  if m = 0 then [progTimerAt k 1, endTimerAt k]
  else if m ≤ 119 then [endTimerAt k, progTimerAt k (m + 1)]
  else [endTimerAt k]

/-- Every published update names one of the three stages and a percent
within `[0, 100]`. -/
def LogOK (log : List (Nat × ℚ)) : Prop :=
  ∀ p ∈ log, p.1 < 3 ∧ 0 ≤ p.2 ∧ p.2 ≤ 100

/-- Full characterization of the world after `n` deliveries (the update
log is characterized by `LogOK` rather than listed). -/
def WorldInv (n : Nat) (w : SimWorld) : Prop :=
  w.now = 12000 * (n / 121) + 100 * (n % 121) ∧
  w.currentStage = (n / 121) % 3 ∧
  w.progressValue = ((n % 121 : Nat) : ℚ) * progressInc ∧
  w.progress = ((n % 121 : Nat) : ℚ) * progressInc ∧
  w.progressTimer = some (2 * (n / 121)) ∧
  w.stageTimer = some (2 * (n / 121) + 1) ∧
  w.nextId = 2 * (n / 121) + 2 ∧
  w.timers = timersAt (n / 121) (n % 121) ∧
  LogOK w.log

theorem inc_mul_le (m : Nat) (h : m ≤ 120) : ((m : ℚ)) * progressInc ≤ 100 := by
  have hm : (m : ℚ) ≤ 120 := by exact_mod_cast h
  calc (m : ℚ) * progressInc ≤ 120 * progressInc := by
        apply mul_le_mul_of_nonneg_right hm
        norm_num [progressInc]
    _ = 100 := by norm_num [progressInc]

theorem inc_mul_lt (m : Nat) (h : m < 120) : ((m : ℚ)) * progressInc < 100 := by
  have hm : (m : ℚ) < 120 := by exact_mod_cast h
  calc (m : ℚ) * progressInc < 120 * progressInc := by
        apply mul_lt_mul_of_pos_right hm
        norm_num [progressInc]
    _ = 100 := by norm_num [progressInc]

theorem inc_mul_nonneg (m : Nat) : (0 : ℚ) ≤ ((m : ℚ)) * progressInc := by
  apply mul_nonneg (by positivity)
  norm_num [progressInc]

theorem inc_succ (m : Nat) :
    ((m : ℚ)) * progressInc + progressInc = (((m + 1 : Nat) : ℚ)) * progressInc := by
  push_cast
  ring

theorem inc_120 : (((120 : Nat) : ℚ)) * progressInc = 100 := by
  norm_num [progressInc]

theorem stageDuration_mod3 (x : Nat) : stageDuration (x % 3) = 12000 := by
  rcases (show x % 3 = 0 ∨ x % 3 = 1 ∨ x % 3 = 2 by omega) with h | h | h <;> rw [h] <;> rfl

theorem startStage_inc : (100 : ℚ) / (((12000 : Nat) : ℚ) / 100) = progressInc := by
  norm_num [progressInc]

theorem pickDue_pair (a b : HostTimer) :
    pickDue [a, b] = some (if timerBefore a b then a else b) := rfl

theorem pickDue_single (a : HostTimer) : pickDue [a] = some a := rfl

theorem logOK_append (log : List (Nat × ℚ)) (p : Nat × ℚ) (h : LogOK log)
    (h1 : p.1 < 3) (h2 : 0 ≤ p.2) (h3 : p.2 ≤ 100) : LogOK (log ++ [p]) := by
  intro q hq
  rcases List.mem_append.mp hq with hmem | hmem
  · exact h q hmem
  · rcases List.mem_singleton.mp hmem with rfl
    exact ⟨h1, h2, h3⟩
theorem worldInv_zero : WorldInv 0 (runSim 0) := by
  have h : runSim 0 = startSim := rfl
  rw [h]
  unfold WorldInv startSim startStage setTimer initWorld
  norm_num [timersAt, progTimerAt, endTimerAt, stageDuration, stages, progressInc, LogOK]
theorem fireTimer_prog (w : SimWorld) (k m : Nat) (hm : m ≤ 118)
    (hpv : w.progressValue = ((m : Nat) : ℚ) * progressInc)
    (hflt : List.filter (fun u => decide (u.id ≠ 2 * k)) w.timers = [endTimerAt k]) :
    fireTimer w (progTimerAt k (m + 1)) =
      { w with now := 12000 * k + 100 * (m + 1),
               progressValue := (((m + 1 : Nat)) : ℚ) * progressInc,
               progress := (((m + 1 : Nat)) : ℚ) * progressInc,
               timers := [endTimerAt k, progTimerAt k (m + 2)],
               log := w.log ++ [(w.currentStage, (((m + 1 : Nat)) : ℚ) * progressInc)] } := by
  have hlt : w.progressValue + progressInc < 100 := by
    rw [hpv, inc_succ]
    exact inc_mul_lt (m + 1) (by omega)
  have hle : w.progressValue + progressInc ≤ 100 := le_of_lt hlt
  have hsum : w.progressValue + progressInc = (((m + 1 : Nat)) : ℚ) * progressInc := by
    rw [hpv, inc_succ]
  have hdue : 12000 * k + 100 * (m + 2) = 12000 * k + 100 * (m + 1) + 100 := by omega
  unfold fireTimer
  simp only [progTimerAt]
  rw [if_neg (not_le.mpr hlt)]
  have hle2 : (((m + 1 : Nat)) : ℚ) * progressInc ≤ 100 := inc_mul_le (m + 1) (by omega)
  simp only [SimWorld.mk.injEq, true_and, and_true, hflt, hsum, hdue,
             min_eq_left hle, min_eq_left hle2]
  rfl
theorem fireTimer_prog_clamp (w : SimWorld) (k : Nat)
    (hpv : w.progressValue = (((119 : Nat)) : ℚ) * progressInc)
    (hflt : List.filter (fun u => decide (u.id ≠ 2 * k)) w.timers = [endTimerAt k]) :
    fireTimer w (progTimerAt k 120) =
      { w with now := 12000 * k + 100 * 120,
               progressValue := 100, progress := 100,
               timers := [endTimerAt k],
               log := w.log ++ [(w.currentStage, 100)] } := by
  have hsum : w.progressValue + progressInc = 100 := by
    rw [hpv]
    norm_num [progressInc]
  have hge : (100 : ℚ) ≤ w.progressValue + progressInc := le_of_eq hsum.symm
  unfold fireTimer
  simp only [progTimerAt]
  rw [if_pos hge]
  simp only [SimWorld.mk.injEq, true_and, and_true, hflt]

theorem fireTimer_end (w : SimWorld) (k : Nat)
    (hpt : w.progressTimer = some (2 * k))
    (hni : w.nextId = 2 * k + 2)
    (hts : w.timers = [endTimerAt k]) :
    fireTimer w (endTimerAt k) =
      { w with now := 12000 * (k + 1),
               currentStage := (k + 1) % 3,
               progressValue := 0, progress := 0,
               progressTimer := some (2 * (k + 1)),
               stageTimer := some (2 * (k + 1) + 1),
               nextId := 2 * (k + 1) + 2,
               timers := [progTimerAt (k + 1) 1, endTimerAt (k + 1)],
               log := w.log ++ [((k + 1) % 3, 0)] } := by
  have hmod : (k % 3 + 1) % 3 = (k + 1) % 3 := by omega
  have hfempty : List.filter (fun u => decide (u.id ≠ 2 * k + 1)) w.timers = [] := by
    rw [hts]
    simp [endTimerAt]
  unfold fireTimer
  simp only [endTimerAt]
  unfold clearTimer
  simp only [hpt]
  unfold startStage
  simp only [hfempty, List.filter_nil, hmod, stageDuration_mod3, hni]
  unfold setTimer
  simp only [SimWorld.mk.injEq, true_and, and_true, List.nil_append, List.cons_append,
             List.cons.injEq, HostTimer.mk.injEq, progTimerAt, endTimerAt, startStage_inc,
             hmod, Option.some.injEq]
  omega
theorem worldInv_step (n : Nat) (w : SimWorld) (h : WorldInv n w) :
    WorldInv (n + 1) (fireNext w) := by
  obtain ⟨hnow, hcs, hpv, hpr, hpt, hst, hni, hts, hlog⟩ := h
  have hm121 : n % 121 < 121 := Nat.mod_lt _ (by omega)
  by_cases hA : n % 121 ≤ 118
  · -- an ordinary interval tick fires
    have hpick : pickDue w.timers = some (progTimerAt (n / 121) (n % 121 + 1)) := by
      rw [hts]
      unfold timersAt
      by_cases h0 : n % 121 = 0
      · rw [if_pos h0, pickDue_pair, if_pos ?_, h0]
        simp only [timerBefore, progTimerAt, endTimerAt, Bool.or_eq_true, decide_eq_true_eq,
                   Bool.and_eq_true]
        omega
      · rw [if_neg h0, if_pos (by omega : n % 121 ≤ 119), pickDue_pair, if_neg ?_]
        simp only [timerBefore, progTimerAt, endTimerAt, Bool.or_eq_true, decide_eq_true_eq,
                   Bool.and_eq_true]
        omega
    have hflt : List.filter (fun u => decide (u.id ≠ 2 * (n / 121))) w.timers
        = [endTimerAt (n / 121)] := by
      rw [hts]
      unfold timersAt
      by_cases h0 : n % 121 = 0
      · rw [if_pos h0]
        simp [progTimerAt, endTimerAt]
      · rw [if_neg h0, if_pos (by omega : n % 121 ≤ 119)]
        simp [progTimerAt, endTimerAt]
    have hfn : fireNext w = fireTimer w (progTimerAt (n / 121) (n % 121 + 1)) := by
      unfold fireNext
      rw [hpick]
    rw [hfn, fireTimer_prog w (n / 121) (n % 121) hA hpv hflt]
    have hdiv : (n + 1) / 121 = n / 121 := by omega
    have hmod : (n + 1) % 121 = n % 121 + 1 := by omega
    refine ⟨?_, ?_, ?_, ?_, ?_, ?_, ?_, ?_, ?_⟩
    · simp only [hdiv, hmod]
    · simp only [hdiv, hcs]
    · simp only [hmod]
    · simp only [hmod]
    · simp only [hdiv, hpt]
    · simp only [hdiv, hst]
    · simp only [hdiv, hni]
    · simp only [hdiv, hmod]
      unfold timersAt
      rw [if_neg (by omega : ¬(n % 121 + 1 = 0)), if_pos (by omega : n % 121 + 1 ≤ 119)]
    · exact logOK_append w.log _ hlog (by rw [hcs]; omega)
        (inc_mul_nonneg (n % 121 + 1)) (inc_mul_le (n % 121 + 1) (by omega))
  · by_cases hB : n % 121 = 119
    · -- the 120th tick fires and clamps to 100
      have hpick : pickDue w.timers = some (progTimerAt (n / 121) 120) := by
        rw [hts]
        unfold timersAt
        rw [if_neg (by omega : ¬(n % 121 = 0)), if_pos (by omega : n % 121 ≤ 119),
            pickDue_pair, if_neg ?_, hB]
        simp only [timerBefore, progTimerAt, endTimerAt, Bool.or_eq_true, decide_eq_true_eq,
                   Bool.and_eq_true]
        omega
      have hflt : List.filter (fun u => decide (u.id ≠ 2 * (n / 121))) w.timers
          = [endTimerAt (n / 121)] := by
        rw [hts]
        unfold timersAt
        rw [if_neg (by omega : ¬(n % 121 = 0)), if_pos (by omega : n % 121 ≤ 119)]
        simp [progTimerAt, endTimerAt]
      have hpv119 : w.progressValue = (((119 : Nat)) : ℚ) * progressInc := by
        rw [hpv, hB]
      have hfn : fireNext w = fireTimer w (progTimerAt (n / 121) 120) := by
        unfold fireNext
        rw [hpick]
      rw [hfn, fireTimer_prog_clamp w (n / 121) hpv119 hflt]
      have hdiv : (n + 1) / 121 = n / 121 := by omega
      have hmod : (n + 1) % 121 = 120 := by omega
      refine ⟨?_, ?_, ?_, ?_, ?_, ?_, ?_, ?_, ?_⟩
      · simp only [hdiv, hmod]
      · simp only [hdiv, hcs]
      · simp only [hmod, inc_120]
      · simp only [hmod, inc_120]
      · simp only [hdiv, hpt]
      · simp only [hdiv, hst]
      · simp only [hdiv, hni]
      · simp only [hdiv, hmod]
        unfold timersAt
        rw [if_neg (by omega : ¬(120 = 0)), if_neg (by omega : ¬(120 ≤ 119))]
      · exact logOK_append w.log _ hlog (by rw [hcs]; omega) (by norm_num) (by norm_num)
    · -- the stage timeout fires: next stage
      have hm120 : n % 121 = 120 := by omega
      have htsE : w.timers = [endTimerAt (n / 121)] := by
        rw [hts]
        unfold timersAt
        rw [if_neg (by omega : ¬(n % 121 = 0)), if_neg (by omega : ¬(n % 121 ≤ 119))]
      have hfn : fireNext w = fireTimer w (endTimerAt (n / 121)) := by
        unfold fireNext
        rw [htsE, pickDue_single]
      rw [hfn, fireTimer_end w (n / 121) hpt hni htsE]
      have hdiv : (n + 1) / 121 = n / 121 + 1 := by omega
      have hmod : (n + 1) % 121 = 0 := by omega
      refine ⟨?_, ?_, ?_, ?_, ?_, ?_, ?_, ?_, ?_⟩
      · simp only [hdiv, hmod]
        omega
      · simp only [hdiv]
      · simp only [hmod, Nat.cast_zero, zero_mul]
      · simp only [hmod, Nat.cast_zero, zero_mul]
      · simp only [hdiv]
      · simp only [hdiv]
      · simp only [hdiv]
      · simp only [hdiv, hmod]
        unfold timersAt
        rw [if_pos rfl]
      · exact logOK_append w.log _ hlog (by simp; omega) (by norm_num) (by norm_num)

theorem worldInv_runSim (n : Nat) : WorldInv n (runSim n) := by
  induction n with
  | zero => exact worldInv_zero
  | succ n ih =>
    have h : runSim (n + 1) = fireNext (runSim n) :=
      Function.iterate_succ_apply' fireNext n startSim
    rw [h]
    exact worldInv_step n (runSim n) ih

/-! ## Claims C1 and C4 -/

theorem fireNext_no_timers (w : SimWorld) (h : w.timers = []) : fireNext w = w := by
  unfold fireNext
  rw [h]
  rfl

theorem fireNext_iterate_no_timers (w : SimWorld) (h : w.timers = []) :
    ∀ j, fireNext^[j] w = w := by
  intro j
  induction j with
  | zero => rfl
  | succ j ih => rw [Function.iterate_succ_apply', ih, fireNext_no_timers w h]

theorem clearTimer_of_no_timers (x : Option Nat) (w : SimWorld) (h : w.timers = []) :
    clearTimer w x = w := by
  cases x with
  | none => rfl
  | some i =>
    unfold clearTimer
    rw [h]
    show { w with timers := ([] : List HostTimer) } = w
    rw [← h]

theorem stopSim_of_no_timers (w : SimWorld) (h : w.timers = []) : stopSim w = w := by
  rw [stopSim, clearTimer_of_no_timers _ _ h, clearTimer_of_no_timers _ _ h]

theorem stopSim_timers_eq (w : SimWorld) (k : Nat)
    (hpt : w.progressTimer = some (2 * k)) (hst : w.stageTimer = some (2 * k + 1)) :
    (stopSim w).timers =
      List.filter (fun u => decide (u.id ≠ 2 * k))
        (List.filter (fun u => decide (u.id ≠ 2 * k + 1)) w.timers) := by
  unfold stopSim
  rw [hst, hpt]
  rfl

theorem timersAt_stop (k m : Nat) :
    List.filter (fun u => decide (u.id ≠ 2 * k))
      (List.filter (fun u => decide (u.id ≠ 2 * k + 1)) (timersAt k m)) = [] := by
  unfold timersAt
  split_ifs <;> simp [progTimerAt, endTimerAt]

theorem stopSim_log (w : SimWorld) : (stopSim w).log = w.log := by
  unfold stopSim clearTimer
  cases w.stageTimer <;> cases w.progressTimer <;> rfl

/-- C1: stopping the simulator — running the effect cleanup
`clearTimeout(stageTimer); clearInterval(progressTimer)` — at any point
of the run cancels every pending host timer; afterwards the event loop
delivers nothing, so no further `onTick` update (stage index or percent)
is ever published, at whatever stage and tick offset the stop happened;
and stopping is idempotent. -/
theorem stop_halts_progress_simulator (n : Nat) :
    (stopSim (runSim n)).timers = [] ∧
    (∀ j, fireNext^[j] (stopSim (runSim n)) = stopSim (runSim n)) ∧
    (∀ j, (fireNext^[j] (stopSim (runSim n))).log = (runSim n).log) ∧
    stopSim (stopSim (runSim n)) = stopSim (runSim n) := by
  obtain ⟨_, _, _, _, hpt, hst, _, hts, _⟩ := worldInv_runSim n
  have htimers : (stopSim (runSim n)).timers = [] := by
    rw [stopSim_timers_eq (runSim n) (n / 121) hpt hst, hts, timersAt_stop]
  refine ⟨htimers, fireNext_iterate_no_timers _ htimers, ?_, stopSim_of_no_timers _ htimers⟩
  intro j
  rw [fireNext_iterate_no_timers _ htimers j, stopSim_log]

theorem timersAt_ne_nil (k m : Nat) : timersAt k m ≠ [] := by
  unfold timersAt
  split_ifs <;> simp

/-- C4: the simulator's stage list has exactly 3 stages of equal fixed
duration (12000 ms).  Writing `n = 121 * k + m` with `m < 121` for the
number of timer deliveries since start (120 interval ticks per stage,
then the stage-end timeout), the displayed percent is exactly
`m * (100/120)` — it advances from 0 in equal increments on the fixed
100 ms tick, never exceeds 100, reaches exactly 100 on the 120th tick,
and resets to 0 at each stage change (`m = 0`) — and the displayed stage
index is `k % 3`: after the 3rd stage completes the index returns to 0
and the cycle repeats; a pending timer always remains, so the animation
never ends on its own.  Every published percent lies in `[0, 100]`. -/
theorem progress_simulator_stage_cycle :
    (stages.length = 3 ∧ ∀ st ∈ stages, st.duration = 12000) ∧
    (∀ n, (runSim n).currentStage = (n / 121) % 3 ∧
      (runSim n).progress = ((n % 121 : Nat) : ℚ) * progressInc ∧
      (runSim n).progress ≤ 100 ∧
      (runSim n).timers ≠ []) ∧
    (∀ n, ∀ p ∈ (runSim n).log, 0 ≤ p.2 ∧ p.2 ≤ 100) := by
  refine ⟨⟨rfl, ?_⟩, ?_, ?_⟩
  · intro st hst
    fin_cases hst <;> rfl
  · intro n
    obtain ⟨_, hcs, _, hpr, _, _, _, hts, _⟩ := worldInv_runSim n
    refine ⟨hcs, hpr, ?_, ?_⟩
    · rw [hpr]
      exact inc_mul_le (n % 121) (by omega)
    · rw [hts]
      exact timersAt_ne_nil _ _
  · intro n p hp
    obtain ⟨_, _, _, _, _, _, _, _, hlog⟩ := worldInv_runSim n
    exact (hlog p hp).2

theorem progress_simulator_stage_cycle_witness :
    ((0 : Nat), (0 : ℚ)) ∈ (runSim 0).log ∧ (0 : ℚ) ≤ (0 : ℚ) ∧ (0 : ℚ) ≤ 100 := by
  have hmem : ((0 : Nat), (0 : ℚ)) ∈ (runSim 0).log := by
    rw [show (runSim 0).log = [((0 : Nat), (0 : ℚ))] from rfl]
    exact List.mem_singleton.mpr rfl
  have h := progress_simulator_stage_cycle.2.2 0 ((0 : Nat), (0 : ℚ)) hmem
  exact ⟨hmem, h.1, h.2⟩
